import Mathlib

/-!
Shallow embedding of the tap-ga4 report extraction engine (tap_ga4/sync.py)
and proofs about its claimed properties.

Conventions used throughout:
- Python byte strings are `List Nat` (each entry < 256).
- Python dicts with string keys are association lists `List (String × String)`
  with insertion-order semantics: updating an existing key replaces the value
  in place, a new key is appended (`dictSet`).
- Calendar datetimes are integers: days (for report date chunking) or seconds
  since the epoch (for bookmark/now comparisons), at second granularity.
- Fallible Python code (uncaught exceptions) is modelled with `Option`/`Except`.
-/

namespace TapGA4

/-! ### Hex and byte helpers -/

def hexDigit (n : Nat) : Char :=
  if n < 10 then Char.ofNat (48 + n) else Char.ofNat (87 + n)

def hex4 (n : Nat) : String :=
  String.mk [hexDigit (n / 4096 % 16), hexDigit (n / 256 % 16),
             hexDigit (n / 16 % 16), hexDigit (n % 16)]

def hex8 (n : Nat) : String :=
  hex4 (n / 65536) ++ hex4 (n % 65536)

/-- Split a list into chunks of `size` elements (fuel-driven so that the
kernel can evaluate it; `fuel ≥ l.length` suffices). -/
def chunksGo (size : Nat) : Nat → List α → List (List α)
  | 0, _ => []
  | _, [] => []
  | fuel+1, l@(_ :: _) => l.take size :: chunksGo size fuel (l.drop size)

/-! ### SHA-256 over byte lists (hashlib.sha256), word-level on Nat mod 2^32 -/

def M32 : Nat := 4294967296

def rotr (n x : Nat) : Nat := (x >>> n) ||| ((x <<< (32 - n)) % M32)

def sigma0 (x : Nat) : Nat := (rotr 7 x) ^^^ (rotr 18 x) ^^^ (x >>> 3)
def sigma1 (x : Nat) : Nat := (rotr 17 x) ^^^ (rotr 19 x) ^^^ (x >>> 10)
def bigS0 (x : Nat) : Nat := (rotr 2 x) ^^^ (rotr 13 x) ^^^ (rotr 22 x)
def bigS1 (x : Nat) : Nat := (rotr 6 x) ^^^ (rotr 11 x) ^^^ (rotr 25 x)

def shaK : List Nat :=
  [1116352408, 1899447441, 3049323471, 3921009573, 961987163,
   1508970993, 2453635748, 2870763221, 3624381080, 310598401,
   607225278, 1426881987, 1925078388, 2162078206, 2614888103,
   3248222580, 3835390401, 4022224774, 264347078, 604807628,
   770255983, 1249150122, 1555081692, 1996064986, 2554220882,
   2821834349, 2952996808, 3210313671, 3336571891, 3584528711,
   113926993, 338241895, 666307205, 773529912, 1294757372,
   1396182291, 1695183700, 1986661051, 2177026350, 2456956037,
   2730485921, 2820302411, 3259730800, 3345764771, 3516065817,
   3600352804, 4094571909, 275423344, 430227734, 506948616,
   659060556, 883997877, 958139571, 1322822218, 1537002063,
   1747873779, 1955562222, 2024104815, 2227730452, 2361852424,
   2428436474, 2756734187, 3204031479, 3329325298]

def shaH0 : List Nat :=
  [1779033703, 3144134277, 1013904242, 2773480762, 1359893119,
   2600822924, 528734635, 1541459225]

def extendSchedule : Nat → List Nat → List Nat
  | 0, ws => ws
  | fuel+1, ws =>
    let i := ws.length
    let w := (sigma1 (ws.getD (i - 2) 0) + ws.getD (i - 7) 0 +
              sigma0 (ws.getD (i - 15) 0) + ws.getD (i - 16) 0) % M32
    extendSchedule fuel (ws ++ [w])

def shaRound (st : List Nat) (kw : Nat × Nat) : List Nat :=
  match st with
  | [a, b, c, d, e, f, g, h] =>
    let t1 := (h + bigS1 e + ((e &&& f) ^^^ ((e ^^^ 4294967295) &&& g)) + kw.1 + kw.2) % M32
    let t2 := (bigS0 a + ((a &&& b) ^^^ (a &&& c) ^^^ (b &&& c))) % M32
    [(t1 + t2) % M32, a, b, c, (d + t1) % M32, e, f, g]
  | other => other

def compress (st : List Nat) (block : List Nat) : List Nat :=
  let ws := extendSchedule 48 block
  let st' := (shaK.zip ws).foldl shaRound st
  (st.zip st').map (fun p => (p.1 + p.2) % M32)

def sha256pad (msg : List Nat) : List Nat :=
  let L := msg.length
  let k := (119 - L % 64) % 64
  let bitLen := 8 * L
  msg ++ 128 :: List.replicate k 0 ++
    [(bitLen >>> 56) % 256, (bitLen >>> 48) % 256, (bitLen >>> 40) % 256, (bitLen >>> 32) % 256,
     (bitLen >>> 24) % 256, (bitLen >>> 16) % 256, (bitLen >>> 8) % 256, bitLen % 256]

def bytesToWords (bs : List Nat) : List Nat :=
  (chunksGo 4 bs.length bs).map (fun c => c.foldl (fun acc b => acc * 256 + b) 0)

def sha256words (msg : List Nat) : List Nat :=
  let padded := sha256pad msg
  let ws := bytesToWords padded
  (chunksGo 16 ws.length ws).foldl compress shaH0

/-- Lowercase hex digest of the SHA-256 of a byte list, as
`hashlib.sha256(...).hexdigest()` produces. -/
def sha256hex (msg : List Nat) : String :=
  String.join ((sha256words msg).map hex8)

/-! ### UTF-8 encoding (Python str.encode of 'utf-8')-/

def utf8Char (c : Char) : List Nat :=
  let n := c.toNat
  if n < 128 then [n]
  else if n < 2048 then [192 + n / 64, 128 + n % 64]
  else if n < 65536 then [224 + n / 4096, 128 + n / 64 % 64, 128 + n % 64]
  else [240 + n / 262144, 128 + n / 4096 % 64, 128 + n / 64 % 64, 128 + n % 64]

def utf8Encode (s : String) : List Nat :=
  (s.data.map utf8Char).flatten

/-! ### json.dumps for the fixed payload shape used by the PK hash

`json.dumps` with default arguments: `ensure_ascii=True`, item separator
`", "`.  Only strings and (nested) lists occur in the hash payload, so we
embed exactly the string escaping plus list punctuation. -/

def uEscape (n : Nat) : String := "\\u" ++ hex4 n

def jsonEscapeChar (c : Char) : String :=
  let n := c.toNat
  if c = '"' then "\\\""
  else if c = '\\' then "\\\\"
  else if c = '\n' then "\\n"
  else if c = '\r' then "\\r"
  else if c = '\t' then "\\t"
  else if n = 8 then "\\b"
  else if n = 12 then "\\f"
  else if n < 32 ∨ 127 ≤ n then
    if n < 65536 then uEscape n
    else uEscape (55296 + (n - 65536) / 1024) ++ uEscape (56320 + (n - 65536) % 1024)
  else String.singleton c

def json_str (s : String) : String :=
  "\"" ++ String.join (s.data.map jsonEscapeChar) ++ "\""

def json_pair (p : String × String) : String :=
  "[" ++ json_str p.1 ++ ", " ++ json_str p.2 ++ "]"

def json_pairs (l : List (String × String)) : String :=
  "[" ++ String.intercalate ", " (l.map json_pair) ++ "]"

/-! ### Python dict model: association list with in-place update semantics -/

def dictGet : List (String × String) → String → Option String
  | [], _ => none
  | (k', v) :: rest, k => if k' = k then some v else dictGet rest k

def dictSet : List (String × String) → String → String → List (String × String)
  | [], k, v => [(k, v)]
  | (k', v') :: rest, k, v =>
    if k' = k then (k, v) :: rest else (k', v') :: dictSet rest k v

/-- Python dict update `d.update(pairs)` for a list of key/value pairs. -/
def dictUpdate (d : List (String × String)) (pairs : List (String × String)) :
    List (String × String) :=
  pairs.foldl (fun acc p => dictSet acc p.1 p.2) d

/-! ### Python ordering of (str, str) tuples -/

/-- Python tuple comparison on pairs of strings: lexicographic, first
component by code-point order, then second component. -/
def pairLe (p q : String × String) : Prop :=
  p.1 < q.1 ∨ (p.1 = q.1 ∧ p.2 ≤ q.2)

instance : DecidableRel pairLe := fun p q => by
  unfold pairLe; infer_instance

instance : IsTotal (String × String) pairLe := by
  constructor
  intro p q
  rcases lt_trichotomy p.1 q.1 with h | h | h
  · exact Or.inl (Or.inl h)
  · rcases le_total p.2 q.2 with h2 | h2
    · exact Or.inl (Or.inr ⟨h, h2⟩)
    · exact Or.inr (Or.inr ⟨h.symm, h2⟩)
  · exact Or.inr (Or.inl h)

instance : IsTrans (String × String) pairLe := by
  constructor
  intro p q r hpq hqr
  rcases hpq with h1 | ⟨e1, l1⟩
  · rcases hqr with h2 | ⟨e2, _⟩
    · exact Or.inl (h1.trans h2)
    · exact Or.inl (e2 ▸ h1)
  · rcases hqr with h2 | ⟨e2, l2⟩
    · exact Or.inl (e1 ▸ h2)
    · exact Or.inr ⟨e1.trans e2, l1.trans l2⟩

instance : IsAntisymm (String × String) pairLe := by
  constructor
  intro p q hpq hqp
  rcases hpq with h1 | ⟨e1, l1⟩
  · rcases hqp with h2 | ⟨e2, _⟩
    · exact absurd h2 (lt_asymm h1)
    · exact absurd h1 (e2 ▸ lt_irrefl _)
  · rcases hqp with h2 | ⟨_, l2⟩
    · exact absurd h2 (e1 ▸ lt_irrefl _)
    · exact Prod.ext e1 (le_antisymm l1 l2)

/-- Python `sorted` on a list of (name, value) string pairs. -/
def sortPairs (l : List (String × String)) : List (String × String) :=
  List.insertionSort pairLe l

/-! ### generate_sdc_record_hash (sync.py lines 17-44) -/

/-- Primary-key hash: SHA-256 hex digest of the UTF-8 encoded JSON list
`[property_id, sorted dimension pairs, start_date, end_date]`, the three
scalar fields being read from the record dict (a missing key would be a
`KeyError` in Python, modelled as `none`). -/
def generate_sdc_record_hash (record : List (String × String))
    (dimension_pairs : List (String × String)) : Option String :=
  match dictGet record "property_id", dictGet record "start_date",
        dictGet record "end_date" with
  | some property_id, some start_date, some end_date =>
    let sorted_dimension_pairs := sortPairs dimension_pairs
    let hash_source_data :=
      "[" ++ json_str property_id ++ ", " ++ json_pairs sorted_dimension_pairs ++
      ", " ++ json_str start_date ++ ", " ++ json_str end_date ++ "]"
    some (sha256hex (utf8Encode hash_source_data))
  | _, _, _ => none

/-! ### generate_report_dates (sync.py lines 47-55)

Calendar dates are integers (days since an arbitrary epoch); the source
yields `%Y-%m-%d` strings, an injective monotone encoding of the date value,
so chunk-structure properties are stated on the date values themselves.
The source is a while loop; for `request_range ≥ 1` it performs at most
`end_date - start_date + 1` iterations, which `generate_report_dates`
supplies as structural fuel (one unit per emitted chunk) so that the kernel
can evaluate it.  For `request_range = 0` the source loop would never
terminate; the guard restricts the model to the terminating case. -/

def gd_go (request_range : Nat) : Nat → Int → Int → List (Int × Int)
  | 0, _, _ => []
  | fuel+1, range_start, end_date =>
    if 0 < request_range ∧ range_start ≤ end_date then
      (range_start, min end_date (range_start + request_range - 1)) ::
        gd_go request_range fuel (range_start + request_range) end_date
    else []

def generate_report_dates (start_date end_date : Int) (request_range : Nat) :
    List (Int × Int) :=
  gd_go request_range (end_date + 1 - start_date).toNat start_date end_date

/-! ### row_to_record (sync.py lines 57-71) -/

structure GARow where
  dimension_values : List String
  metric_values : List String

inductive PyErr where
  | value_error
  | index_error
  | key_error
deriving DecidableEq

/-- Parse a response row into a record.  `zip` truncates to the shorter of
its arguments, exactly as in Python.  `dimension_headers.index("date")`
raises ValueError when absent; `dimension_values[i]` raises IndexError when
out of range.  The report dict's `property_id` is passed directly. -/
def row_to_record (property_id : String) (row : GARow)
    (dimension_headers metric_headers : List String) :
    Except PyErr (List (String × String)) :=
  let dimension_values := row.dimension_values
  let dimension_pairs := dimension_headers.zip dimension_values
  let record := dictUpdate [] dimension_pairs
  let record := dictUpdate record (metric_headers.zip row.metric_values)
  match dimension_headers.indexOf? "date" with
  | none => .error .value_error
  | some i =>
    match dimension_values[i]? with
    | none => .error .index_error
    | some report_date =>
      let record := dictSet record "start_date" report_date
      let record := dictSet record "end_date" report_date
      let record := dictSet record "property_id" property_id
      match generate_sdc_record_hash record dimension_pairs with
      | none => .error .key_error
      | some h => .ok (dictSet record "_sdc_record_hash" h)

/-! ### datetime.strptime model for the four compact GA4 formats

CPython's strptime compiles the format to a regex and then builds a
datetime.  The per-directive patterns (from Lib/_strptime.py) are
  %Y: \d\d\d\d            %m: 1[0-2]|0[1-9]|[1-9]
  %d: 3[01]|[12]\d|0[1-9]|[1-9]
  %H: 2[0-3]|[0-1]\d|\d   %M: [0-5]\d|\d
matched left to right with ordered-alternative backtracking; the regex match
need not consume the whole string, but leftover input is then rejected
("unconverted data remains").  Finally datetime() construction rejects
year 0 and a day beyond the month's length. -/

def altOne (p : Char → Bool) : List Char → Option (Nat × List Char)
  | c :: rest => if p c then some (c.toNat - 48, rest) else none
  | _ => none

def altTwo (p1 p2 : Char → Bool) : List Char → Option (Nat × List Char)
  | c1 :: c2 :: rest =>
    if p1 c1 && p2 c2 then some ((c1.toNat - 48) * 10 + (c2.toNat - 48), rest)
    else none
  | _ => none

def altYear : List Char → Option (Nat × List Char)
  | c1 :: c2 :: c3 :: c4 :: rest =>
    if c1.isDigit && c2.isDigit && c3.isDigit && c4.isDigit then
      some ((((c1.toNat - 48) * 10 + (c2.toNat - 48)) * 10 + (c3.toNat - 48)) * 10
            + (c4.toNat - 48), rest)
    else none
  | _ => none

def chBetween (lo hi c : Char) : Bool :=
  decide (lo.toNat ≤ c.toNat ∧ c.toNat ≤ hi.toNat)

def monthAlts : List (List Char → Option (Nat × List Char)) :=
  [altTwo (· == '1') (chBetween '0' '2'), altTwo (· == '0') (chBetween '1' '9'),
   altOne (chBetween '1' '9')]

def dayAlts : List (List Char → Option (Nat × List Char)) :=
  [altTwo (· == '3') (chBetween '0' '1'), altTwo (chBetween '1' '2') Char.isDigit,
   altTwo (· == '0') (chBetween '1' '9'), altOne (chBetween '1' '9')]

def hourAlts : List (List Char → Option (Nat × List Char)) :=
  [altTwo (· == '2') (chBetween '0' '3'), altTwo (chBetween '0' '1') Char.isDigit,
   altOne Char.isDigit]

def minuteAlts : List (List Char → Option (Nat × List Char)) :=
  [altTwo (chBetween '0' '5') Char.isDigit, altOne Char.isDigit]

/-- Try each alternative in order; on a prefix match run the continuation,
and on its failure fall back to the next alternative (regex backtracking). -/
def withAlts (alts : List (List Char → Option (Nat × List Char)))
    (k : Nat → List Char → Option α) (cs : List Char) : Option α :=
  match alts with
  | [] => none
  | alt :: rest =>
    match alt cs with
    | some (v, cs') =>
      match k v cs' with
      | some r => some r
      | none => withAlts rest k cs
    | none => withAlts rest k cs

structure ParsedDT where
  year : Nat
  month : Nat
  day : Nat
  hour : Nat
  minute : Nat
deriving DecidableEq

def match_ymd (cs : List Char) : Option (ParsedDT × List Char) :=
  match altYear cs with
  | none => none
  | some (y, cs1) =>
    withAlts monthAlts (fun m cs2 =>
      withAlts dayAlts (fun d cs3 => some (⟨y, m, d, 0, 0⟩, cs3)) cs2) cs1

def match_ymdH (cs : List Char) : Option (ParsedDT × List Char) :=
  match altYear cs with
  | none => none
  | some (y, cs1) =>
    withAlts monthAlts (fun m cs2 =>
      withAlts dayAlts (fun d cs3 =>
        withAlts hourAlts (fun hh cs4 => some (⟨y, m, d, hh, 0⟩, cs4)) cs3) cs2) cs1

def match_ymdHM (cs : List Char) : Option (ParsedDT × List Char) :=
  match altYear cs with
  | none => none
  | some (y, cs1) =>
    withAlts monthAlts (fun m cs2 =>
      withAlts dayAlts (fun d cs3 =>
        withAlts hourAlts (fun hh cs4 =>
          withAlts minuteAlts (fun mi cs5 => some (⟨y, m, d, hh, mi⟩, cs5)) cs4) cs3) cs2) cs1

inductive GAFormat where
  | date
  | dateHour
  | dateHourMinute
  | firstSessionDate
deriving DecidableEq

/-- The DATETIME_FORMATS dict: field name to strptime format. -/
def DATETIME_FORMATS : String → Option GAFormat
  | "dateHour" => some .dateHour
  | "dateHourMinute" => some .dateHourMinute
  | "date" => some .date
  | "firstSessionDate" => some .firstSessionDate
  | _ => none

def formatMatcher : GAFormat → List Char → Option (ParsedDT × List Char)
  | .date => match_ymd
  | .dateHour => match_ymdH
  | .dateHourMinute => match_ymdHM
  | .firstSessionDate => match_ymd

def isLeap (y : Nat) : Bool :=
  decide (y % 4 = 0 ∧ (y % 100 ≠ 0 ∨ y % 400 = 0))

def daysInMonth (y m : Nat) : Nat :=
  if m = 2 then (if isLeap y then 29 else 28)
  else if m = 4 ∨ m = 6 ∨ m = 9 ∨ m = 11 then 30
  else 31

/-- Model of `datetime.strptime(value, fmt)`; `none` is a ValueError. -/
def strptime (fmt : GAFormat) (value : String) : Option ParsedDT :=
  match formatMatcher fmt value.data with
  | none => none
  | some (dt, leftover) =>
    if leftover ≠ [] then none
    else if 1 ≤ dt.year ∧ 1 ≤ dt.day ∧ dt.day ≤ daysInMonth dt.year dt.month then some dt
    else none

def pad2 (n : Nat) : String :=
  if n < 10 then "0" ++ toString n else toString n

def pad4 (n : Nat) : String :=
  if n < 10 then "000" ++ toString n
  else if n < 100 then "00" ++ toString n
  else if n < 1000 then "0" ++ toString n
  else toString n

/-- Model of `dt.strftime(singer.utils.DATETIME_FMT)` with DATETIME_FMT =
`%04Y-%m-%dT%H:%M:%S.%fZ`; seconds and microseconds of a strptime result of
the four GA4 formats are always zero. -/
def strftimeDT (dt : ParsedDT) : String :=
  pad4 dt.year ++ "-" ++ pad2 dt.month ++ "-" ++ pad2 dt.day ++ "T" ++
  pad2 dt.hour ++ ":" ++ pad2 dt.minute ++ ":00.000000Z"

/-! ### parse_datetime / transform_datetimes (sync.py lines 82-109) -/

/-- Returns the (possibly normalized) value and the is_valid_datetime flag.
The lookup `DATETIME_FORMATS[field_name]` cannot fail when called from
transform_datetimes, which checks membership first; the `none` branch is
unreachable there. -/
def parse_datetime (field_name : String) (value : String) : String × Bool :=
  match DATETIME_FORMATS field_name with
  | some fmt =>
    match strptime fmt value with
    | some dt => (strftimeDT dt, true)
    | none => (value, false)
  | none => (value, false)

/-- Returns the transformed record and the row_limit_reached flag (true
exactly when the warning is logged; the report name argument of the source
is used only in that log line). -/
def transform_datetimes (rec : List (String × String)) :
    List (String × String) × Bool :=
  rec.foldl
    (fun acc fv =>
      if fv.2 ≠ "" ∧ (DATETIME_FORMATS fv.1).isSome then
        (acc.1 ++ [(fv.1, (parse_datetime fv.1 fv.2).1)],
         acc.2 || (!(parse_datetime fv.1 fv.2).2 && (fv.2 == "(other)")))
      else (acc.1 ++ [fv], acc.2))
    ([], false)

/-! ### get_report_start_date (sync.py lines 112-135)

Datetimes are epoch seconds; `utils.now().replace(hour=0, minute=0,
second=0, microsecond=0)` is truncation to the UTC day.  The configured
start date and the bookmark arrive already parsed; `now` is a Nat (UTC
epoch seconds), bookmark/start as Int so the 90-day subtraction may go
below the epoch. -/

def CONVERSION_WINDOW : Nat := 90

def get_report_start_date (start_date : Int) (bookmark : Option Int)
    (now : Nat) : Int :=
  match bookmark with
  | none => start_date
  | some b =>
    let conversion_day : Int :=
      ((now / 86400 * 86400 : Nat) : Int) - (CONVERSION_WINDOW : Int) * 86400
    min b (max start_date conversion_day)

/-! ### seconds_to_next_hour / quota handling / backoff (sync.py lines 150-194)

`now` is UTC epoch seconds (the source works at microsecond granularity;
claims here concern whole seconds).  The wrapped retry loop follows
backoff 1.8.0: every caught exception of the handled tuple increments the
try counter, then `giveup(e) or tries == max_tries` decides whether to
re-raise; backoff.expo with jitter=None sleeps 1, 2, 4, ... seconds before
the 2nd, 3rd, ... calls. -/

def seconds_to_next_hour (now : Nat) : Nat :=
  let next_hour := (now + 3600) / 3600 * 3600 + 10
  next_hour - now

inductive GoogleErr where
  | server_error
  | too_many_requests
  | resource_exhausted
  | other_error
deriving DecidableEq

/-- Membership in the exception tuple of the backoff decorator. -/
def inBackoffTuple : GoogleErr → Bool
  | .server_error => true
  | .too_many_requests => true
  | .resource_exhausted => true
  | .other_error => false

/-- The giveup callback: on ResourceExhausted it sleeps until 10 seconds
past the next UTC hour; it always returns false.  Result: (giveup decision,
sleeps performed), a sleep being (is_quota_sleep, seconds). -/
def sleep_if_quota_reached (e : GoogleErr) (now : Nat) : Bool × List (Bool × Nat) :=
  if e = .resource_exhausted then (false, [(true, seconds_to_next_hour now)])
  else (false, [])

def MAX_TRIES : Nat := 5

instance {ε α : Type} [DecidableEq ε] [DecidableEq α] : DecidableEq (Except ε α) := fun x y =>
  match x, y with
  | .ok a, .ok b => if h : a = b then .isTrue (by rw [h]) else .isFalse (by simp [h])
  | .error a, .error b => if h : a = b then .isTrue (by rw [h]) else .isFalse (by simp [h])
  | .ok _, .error _ => .isFalse (by simp)
  | .error _, .ok _ => .isFalse (by simp)

structure RetryOutcome (α : Type) where
  result : Except GoogleErr α
  sleeps : List (Bool × Nat)
  calls : Nat
deriving DecidableEq

/-- One backoff 1.8.0 retry loop iteration; `k` calls were already made,
`fuel` bounds the remaining iterations (MAX_TRIES - k at the entry point, so
the fuel-exhausted branch is unreachable).  `attempts k` is the outcome of
call number k (0-based); `nows k` the UTC time when its exception handling
runs. -/
def backoff_retry_go (attempts : Nat → Except GoogleErr α) (nows : Nat → Nat) :
    Nat → Nat → RetryOutcome α
  | 0, k => ⟨.error .other_error, [], k⟩
  | fuel+1, k =>
    match attempts k with
    | .ok v => ⟨.ok v, [], k + 1⟩
    | .error e =>
      if inBackoffTuple e then
        let gu := sleep_if_quota_reached e (nows k)
        if gu.1 || (k + 1 == MAX_TRIES) then ⟨.error e, gu.2, k + 1⟩
        else
          let rest := backoff_retry_go attempts nows fuel (k + 1)
          ⟨rest.result, gu.2 ++ (false, 2 ^ k) :: rest.sleeps, rest.calls⟩
      else ⟨.error e, [], k + 1⟩

/-- The decorated make_request as seen by its caller: repeated calls under
the backoff policy.  `.error e` in the result means the exception surfaced
(was re-raised) to the caller. -/
def make_request_with_backoff (attempts : Nat → Except GoogleErr α)
    (nows : Nat → Nat) : RetryOutcome α :=
  backoff_retry_go attempts nows MAX_TRIES 0

/-! ### make_request pagination core / get_report (sync.py lines 173-211)

`row_count offset` is the total row count the API reports on the response
for the given offset; a page is recorded as (offset, row_count). -/

def REPORT_LIMIT : Nat := 100000

/-- Pagination bookkeeping of make_request: the response's row_count,
has_more_rows, and the incremented offset. -/
def make_request (row_count : Nat → Nat) (offset : Nat) : Nat × Bool × Nat :=
  let rc := row_count offset
  (rc, decide (rc > REPORT_LIMIT + offset), offset + REPORT_LIMIT)

def get_report_go (row_count : Nat → Nat) : Nat → Nat → List (Nat × Nat)
  | 0, _ => []
  | fuel+1, offset =>
    let r := make_request row_count offset
    (offset, r.1) :: (if r.2.1 then get_report_go row_count fuel r.2.2 else [])

/-- The page sequence get_report yields, with structural fuel (the source
loop runs for ever if each response keeps reporting a row_count above the
cumulative offset; every claim concerns terminating runs, where any fuel
of at least the page count gives the full sequence). -/
def get_report (row_count : Nat → Nat) (fuel : Nat) : List (Nat × Nat) :=
  get_report_go row_count fuel 0

/-! ### sync_report (sync.py lines 214-246)

The trace of outbound events of one stream sync: emitted records in order,
and each persisted state snapshot (`write_bookmark` followed immediately by
`write_state`; the snapshot carries the bookmark value it persists).
`pages c` is the list of pages for chunk `c`, each page a list of records. -/

inductive SyncEvent (α : Type) where
  | record (r : α)
  | write_state (last_report_date : Option Int)
deriving DecidableEq

def chunkRecords (pages : Int × Int → List (List α)) (c : Int × Int) :
    List (SyncEvent α) :=
  ((pages c).map (fun page => page.map SyncEvent.record)).flatten

def sync_chunks (pages : Int × Int → List (List α)) :
    List (Int × Int) → Option Int → List (SyncEvent α) × Option Int
  | [], st => ([], st)
  | c :: cs, _st =>
    let st' := some c.2
    let rest := sync_chunks pages cs st'
    (chunkRecords pages c ++ SyncEvent.write_state st' :: rest.1, rest.2)

def sync_report (pages : Int × Int → List (List α)) (start_date end_date : Int)
    (request_range : Nat) (st : Option Int) : List (SyncEvent α) × Option Int :=
  sync_chunks pages (generate_report_dates start_date end_date request_range) st

/-! ## Supporting lemmas -/

theorem sortPairs_eq_of_perm {l₁ l₂ : List (String × String)} (h : l₁.Perm l₂) :
    sortPairs l₁ = sortPairs l₂ := by
  refine List.eq_of_perm_of_sorted ?_ (List.sorted_insertionSort pairLe l₁)
    (List.sorted_insertionSort pairLe l₂)
  exact ((List.perm_insertionSort pairLe l₁).trans h).trans
    (List.perm_insertionSort pairLe l₂).symm

theorem dictGet_dictSet_self (d : List (String × String)) (k v : String) :
    dictGet (dictSet d k v) k = some v := by
  induction d with
  | nil => simp [dictSet, dictGet]
  | cons p rest ih =>
    obtain ⟨k', v'⟩ := p
    by_cases h : k' = k
    · simp [dictSet, dictGet, h]
    · simp [dictSet, dictGet, h, ih]

theorem dictGet_dictSet_ne (d : List (String × String)) {k k' : String}
    (h : k' ≠ k) (v : String) : dictGet (dictSet d k' v) k = dictGet d k := by
  induction d with
  | nil => simp [dictSet, dictGet, h]
  | cons p rest ih =>
    obtain ⟨k0, v0⟩ := p
    by_cases h0 : k0 = k'
    · simp [dictSet, dictGet, h0, h]
    · simp only [dictSet, dictGet, if_neg h0]
      by_cases h1 : k0 = k
      · simp [dictGet, h1]
      · simp [dictGet, h1, ih]

/-- What the spec says the primary key is: the SHA-256 hex digest of the
UTF-8 JSON encoding of `[property_id, sorted (name, value) pairs,
start_date, end_date]`. -/
def sdc_hash_spec (property_id : String) (pairs : List (String × String))
    (start_date end_date : String) : String :=
  sha256hex (utf8Encode
    ("[" ++ json_str property_id ++ ", " ++ json_pairs (sortPairs pairs) ++
     ", " ++ json_str start_date ++ ", " ++ json_str end_date ++ "]"))

theorem generate_sdc_record_hash_fields (R : List (String × String))
    (pid rd : String) (pairs : List (String × String)) :
    generate_sdc_record_hash
      (dictSet (dictSet (dictSet R "start_date" rd) "end_date" rd) "property_id" pid)
      pairs = some (sdc_hash_spec pid pairs rd rd) := by
  have h1 : dictGet (dictSet (dictSet (dictSet R "start_date" rd) "end_date" rd)
      "property_id" pid) "property_id" = some pid := dictGet_dictSet_self ..
  have h2 : dictGet (dictSet (dictSet (dictSet R "start_date" rd) "end_date" rd)
      "property_id" pid) "start_date" = some rd := by
    rw [dictGet_dictSet_ne _ (by decide), dictGet_dictSet_ne _ (by decide),
        dictGet_dictSet_self]
  have h3 : dictGet (dictSet (dictSet (dictSet R "start_date" rd) "end_date" rd)
      "property_id" pid) "end_date" = some rd := by
    rw [dictGet_dictSet_ne _ (by decide), dictGet_dictSet_self]
  simp [generate_sdc_record_hash, h1, h2, h3, sdc_hash_spec]

theorem gd_go_zero (r : Nat) (s e : Int) : gd_go r 0 s e = [] := rfl

theorem gd_go_nil (r fuel : Nat) (s e : Int) (h : e < s) : gd_go r fuel s e = [] := by
  cases fuel with
  | zero => rfl
  | succ n =>
    rw [gd_go, if_neg]
    omega

theorem gd_go_cons (r fuel : Nat) (s e : Int) (hr : 0 < r) (hs : s ≤ e) :
    gd_go r (fuel + 1) s e =
      (s, min e (s + r - 1)) :: gd_go r fuel (s + r) e := by
  rw [gd_go, if_pos ⟨hr, hs⟩]

theorem gd_go_head (r fuel : Nat) (s e : Int) (hr : 0 < r) (hs : s ≤ e)
    (hf : 1 ≤ fuel) : (gd_go r fuel s e).head? = some (s, min e (s + r - 1)) := by
  cases fuel with
  | zero => omega
  | succ n => rw [gd_go_cons r n s e hr hs]; rfl

/-- Every produced chunk ends at `min end_date (start + range - 1)` for its
own start, and its start lies inside `[s, e]`. -/
theorem gd_go_mem (r : Nat) (hr : 0 < r) :
    ∀ (fuel : Nat) (s e : Int), ∀ c ∈ gd_go r fuel s e,
      c.2 = min e (c.1 + r - 1) ∧ s ≤ c.1 ∧ c.1 ≤ e := by
  intro fuel
  induction fuel with
  | zero => intro s e c hc; simp [gd_go_zero] at hc
  | succ n ih =>
    intro s e c hc
    by_cases hs : s ≤ e
    · rw [gd_go_cons r n s e hr hs] at hc
      rcases List.mem_cons.mp hc with hc | hc
      · subst hc; exact ⟨rfl, le_refl s, hs⟩
      · obtain ⟨h1, h2, h3⟩ := ih (s + r) e c hc
        exact ⟨h1, by omega, h3⟩
    · rw [gd_go_nil r (n + 1) s e (by omega)] at hc
      simp at hc

theorem gd_go_chain (r : Nat) (hr : 0 < r) :
    ∀ (fuel : Nat) (s e : Int), (e + 1 - s).toNat ≤ fuel →
      List.Chain' (fun c d : Int × Int => d.1 = c.2 + 1) (gd_go r fuel s e) := by
  intro fuel
  induction fuel with
  | zero => intro s e _; rw [gd_go_zero]; exact List.chain'_nil
  | succ n ih =>
    intro s e hf
    by_cases hs : s ≤ e
    · rw [gd_go_cons r n s e hr hs]
      refine List.Chain'.cons' (ih (s + r) e (by omega)) ?_
      intro y hy
      by_cases hs2 : s + r ≤ e
      · rw [gd_go_head r n (s + r) e hr hs2 (by omega)] at hy
        simp only [Option.mem_def, Option.some.injEq] at hy
        subst hy
        show s + (r : Int) = min e (s + (r : Int) - 1) + 1
        rw [min_eq_right (by omega)]
        omega
      · rw [gd_go_nil r n (s + r) e (by omega)] at hy
        simp at hy
    · rw [gd_go_nil r (n + 1) s e (by omega)]
      exact List.chain'_nil

theorem gd_go_last (r : Nat) (hr : 0 < r) :
    ∀ (fuel : Nat) (s e : Int), (e + 1 - s).toNat ≤ fuel → s ≤ e →
      ((gd_go r fuel s e).getLast?).map Prod.snd = some e := by
  intro fuel
  induction fuel with
  | zero => intro s e hf hs; omega
  | succ n ih =>
    intro s e hf hs
    rw [gd_go_cons r n s e hr hs]
    by_cases hs2 : s + r ≤ e
    · have htail := ih (s + r) e (by omega) hs2
      rcases htl : gd_go r n (s + r) e with _ | ⟨hd, tl⟩
      · rw [htl] at htail; simp at htail
      · rw [htl] at htail
        rw [List.getLast?_cons_cons]
        exact htail
    · rw [gd_go_nil r n (s + r) e (by omega), min_eq_left (by omega)]
      rfl

/-- Every chunk except possibly the last spans exactly the request range. -/
theorem gd_go_dropLast (r : Nat) (hr : 0 < r) :
    ∀ (fuel : Nat) (s e : Int), (e + 1 - s).toNat ≤ fuel →
      ∀ c ∈ (gd_go r fuel s e).dropLast, c.2 = c.1 + r - 1 := by
  intro fuel
  induction fuel with
  | zero => intro s e _ c hc; simp [gd_go_zero] at hc
  | succ n ih =>
    intro s e hf c hc
    by_cases hs : s ≤ e
    · rw [gd_go_cons r n s e hr hs] at hc
      by_cases hs2 : s + r ≤ e
      · rcases htl : gd_go r n (s + r) e with _ | ⟨hd, tl⟩
        · have hh := gd_go_head r n (s + r) e hr hs2 (by omega)
          rw [htl] at hh
          simp at hh
        · rw [htl, List.dropLast_cons₂] at hc
          rcases List.mem_cons.mp hc with hc | hc
          · subst hc
            show min e (s + (r : Int) - 1) = s + (r : Int) - 1
            rw [min_eq_right (by omega)]
          · rw [← htl] at hc
            exact ih (s + r) e (by omega) c hc
      · rw [gd_go_nil r n (s + r) e (by omega)] at hc
        simp at hc
    · rw [gd_go_nil r (n + 1) s e (by omega)] at hc
      simp at hc

/-- Each day of `[s, e]` is covered by exactly one chunk, days outside by
none. -/
theorem gd_go_countP (r : Nat) (hr : 0 < r) (d : Int) :
    ∀ (fuel : Nat) (s e : Int), (e + 1 - s).toNat ≤ fuel →
      ((gd_go r fuel s e).countP (fun c => decide (c.1 ≤ d ∧ d ≤ c.2))) =
        if s ≤ d ∧ d ≤ e then 1 else 0 := by
  intro fuel
  induction fuel with
  | zero =>
    intro s e hf
    rw [gd_go_zero, List.countP_nil, if_neg]
    omega
  | succ n ih =>
    intro s e hf
    by_cases hs : s ≤ e
    · rw [gd_go_cons r n s e hr hs, List.countP_cons, ih (s + r) e (by omega)]
      simp only [decide_eq_true_eq]
      rcases le_total (s + (r : Int) - 1) e with h1 | h1
      · rw [min_eq_right h1]
        split_ifs <;> omega
      · rw [min_eq_left h1]
        split_ifs <;> omega
    · rw [gd_go_nil r (n + 1) s e (by omega), List.countP_nil, if_neg]
      omega

/-- C2: for start_date ≤ end_date and positive span, generate_report_dates
yields chunks whose first starts at start_date, each subsequent chunk starts
the day after the previous chunk's end, every chunk except possibly the
last spans exactly request_range days (and none spans more), the final
chunk ends exactly at end_date, and every day of [start_date, end_date] is
covered by exactly one chunk while days outside are covered by none; for
start_date > end_date the sequence is empty. -/
theorem claim_C2 (start_date end_date : Int) (request_range : Nat)
    (hr : 0 < request_range) (chunks : List (Int × Int))
    (hc : chunks = generate_report_dates start_date end_date request_range) :
    (end_date < start_date → chunks = []) ∧
    (start_date ≤ end_date → ∃ c rest, chunks = c :: rest ∧ c.1 = start_date) ∧
    List.Chain' (fun c d : Int × Int => d.1 = c.2 + 1) chunks ∧
    (∀ c ∈ chunks.dropLast, c.2 - c.1 + 1 = request_range) ∧
    (∀ c ∈ chunks, c.1 ≤ c.2 ∧ c.2 - c.1 + 1 ≤ request_range) ∧
    (start_date ≤ end_date → (chunks.getLast?).map Prod.snd = some end_date) ∧
    (∀ d : Int, chunks.countP (fun c => decide (c.1 ≤ d ∧ d ≤ c.2)) =
      if start_date ≤ d ∧ d ≤ end_date then 1 else 0) := by
  subst hc
  unfold generate_report_dates
  refine ⟨?_, ?_, ?_, ?_, ?_, ?_, ?_⟩
  · intro h
    exact gd_go_nil request_range _ start_date end_date h
  · intro hs
    refine ⟨(start_date, min end_date (start_date + request_range - 1)),
      gd_go request_range ((end_date + 1 - start_date).toNat - 1)
        (start_date + request_range) end_date, ?_, rfl⟩
    have h1 : (end_date + 1 - start_date).toNat = ((end_date + 1 - start_date).toNat - 1) + 1 := by
      omega
    rw [h1, gd_go_cons _ _ _ _ hr hs, Nat.add_sub_cancel]
  · exact gd_go_chain request_range hr _ start_date end_date (le_refl _)
  · intro c hc
    have := gd_go_dropLast request_range hr _ start_date end_date (le_refl _) c hc
    omega
  · intro c hc
    obtain ⟨h1, h2, h3⟩ := gd_go_mem request_range hr _ start_date end_date c hc
    rcases le_total (c.1 + (request_range : Int) - 1) end_date with h4 | h4
    · rw [min_eq_right h4] at h1
      omega
    · rw [min_eq_left h4] at h1
      omega
  · intro hs
    exact gd_go_last request_range hr _ start_date end_date (le_refl _) hs
  · intro d
    exact gd_go_countP request_range hr d _ start_date end_date (le_refl _)

/-- Witness for C2 at start 0, end 15, span 7 days: chunks (0,6), (7,13),
(14,15). -/
theorem claim_C2_witness :
    (0 < 7 ∧ ([((0 : Int), (6 : Int)), (7, 13), (14, 15)]
        = generate_report_dates 0 15 7)) ∧
    ((0 : Int) ≤ 15 →
      (([((0 : Int), (6 : Int)), (7, 13), (14, 15)].getLast?).map Prod.snd
        = some 15)) := by
  refine ⟨⟨by decide, by decide⟩, ?_⟩
  exact (claim_C2 0 15 7 (by decide) [(0, 6), (7, 13), (14, 15)] (by decide)).2.2.2.2.2.1

/-- C5 counterexample: with configured start 0, bookmark at day 50 and now
at day 200 (epoch seconds), the conversion day is day 110; the bookmark is
older than the conversion day, yet the function returns the bookmark
(4320000 = 50 days), not max(start, conversion_day) = 9504000 as the claim
states. -/
theorem claim_C5_counterexample :
    get_report_start_date 0 (some 4320000) 17280000 = 4320000 ∧
    ((17280000 / 86400 * 86400 : Nat) : Int) - (CONVERSION_WINDOW : Int) * 86400
      = 9504000 ∧
    (4320000 : Int) < 9504000 ∧
    max (0 : Int) 9504000 = 9504000 ∧
    (4320000 : Int) ≠ 9504000 := by
  refine ⟨?_, by decide, by decide, by decide, by decide⟩
  rw [get_report_start_date]
  decide

/-- C5 as amended: with no bookmark the configured start is returned;
otherwise the result is min(bookmark, max(start, conversion_day)) with
conversion_day = now truncated to midnight UTC minus 90 days; hence a
bookmark OLDER than the conversion day yields the bookmark itself, and a
bookmark within the window that is also at or after the configured start
yields max(start, conversion_day). -/
theorem claim_C5 (start_date b : Int) (now : Nat) :
    get_report_start_date start_date none now = start_date ∧
    get_report_start_date start_date (some b) now =
      min b (max start_date
        (((now / 86400 * 86400 : Nat) : Int) - (CONVERSION_WINDOW : Int) * 86400)) ∧
    (b < ((now / 86400 * 86400 : Nat) : Int) - (CONVERSION_WINDOW : Int) * 86400 →
      get_report_start_date start_date (some b) now = b) ∧
    (((now / 86400 * 86400 : Nat) : Int) - (CONVERSION_WINDOW : Int) * 86400 ≤ b →
      start_date ≤ b →
      get_report_start_date start_date (some b) now =
        max start_date
          (((now / 86400 * 86400 : Nat) : Int) - (CONVERSION_WINDOW : Int) * 86400)) := by
  refine ⟨rfl, rfl, ?_, ?_⟩
  · intro h
    rw [get_report_start_date]
    exact min_eq_left (le_trans (le_of_lt h) (le_max_right _ _))
  · intro h1 h2
    rw [get_report_start_date]
    exact min_eq_right (max_le h2 h1)

/-- Witness for C5: a bookmark older than the conversion window resumes at
the bookmark; a recent bookmark resumes at the conversion day. -/
theorem claim_C5_witness :
    get_report_start_date 0 (some 4320000) 17280000 = 4320000 ∧
    get_report_start_date 0 (some 17000000) 17280000 = 9504000 := by
  constructor
  · exact (claim_C5 0 4320000 17280000).2.2.1 (by decide)
  · have h := (claim_C5 0 17000000 17280000).2.2.2 (by decide) (by decide)
    rw [h]
    decide

theorem get_report_go_succ (row_count : Nat → Nat) (fuel offset : Nat) :
    get_report_go row_count (fuel + 1) offset =
      (offset, row_count offset) ::
        (if REPORT_LIMIT + offset < row_count offset then
          get_report_go row_count fuel (offset + REPORT_LIMIT) else []) := by
  simp only [get_report_go, make_request, decide_eq_true_eq, gt_iff_lt]

theorem get_report_go_offsets (row_count : Nat → Nat) :
    ∀ (fuel offset : Nat),
      (get_report_go row_count fuel offset).map Prod.fst =
        (List.range (get_report_go row_count fuel offset).length).map
          (fun i => offset + i * REPORT_LIMIT) := by
  intro fuel
  induction fuel with
  | zero => intro off; rfl
  | succ n ih =>
    intro off
    rw [get_report_go_succ]
    by_cases h : REPORT_LIMIT + off < row_count off
    · rw [if_pos h]
      simp only [List.map_cons, List.length_cons, List.range_succ_eq_map,
        List.map_map]
      congr 1
      rw [ih (off + REPORT_LIMIT)]
      refine List.map_congr_left ?_
      intro i _
      simp only [Function.comp_apply, REPORT_LIMIT, Nat.succ_eq_add_one]
      omega
    · rw [if_neg h]
      simp [List.range_succ]

/-- C6: get_report pages at offsets 0, 100000, 200000, ...; right after any
page it yields a further page exactly when that response's row_count
exceeds offset + 100000; row_count 250000 gives exactly the three offsets
0, 100000, 200000; any row_count at most 100000 gives exactly one page
(fuel-indexed with any sufficient fuel, mirroring the source's unbounded
while loop). -/
theorem claim_C6 :
    (∀ (row_count : Nat → Nat) (fuel offset : Nat),
      2 ≤ (get_report_go row_count (fuel + 2) offset).length ↔
        REPORT_LIMIT + offset < row_count offset) ∧
    (∀ (row_count : Nat → Nat) (fuel offset : Nat),
      (get_report_go row_count fuel offset).map Prod.fst =
        (List.range (get_report_go row_count fuel offset).length).map
          (fun i => offset + i * REPORT_LIMIT)) ∧
    (∀ (N fuel : Nat), N ≤ REPORT_LIMIT →
      get_report (fun _ => N) (fuel + 1) = [(0, N)]) ∧
    (∀ fuel : Nat, get_report (fun _ => 250000) (fuel + 3) =
      [(0, 250000), (100000, 250000), (200000, 250000)]) := by
  refine ⟨?_, get_report_go_offsets, ?_, ?_⟩
  · intro row_count fuel offset
    constructor
    · intro hlen
      by_contra h
      rw [get_report_go_succ, if_neg h] at hlen
      simp at hlen
    · intro h
      rw [get_report_go_succ, if_pos h, get_report_go_succ]
      simp
  · intro N fuel h
    rw [get_report, get_report_go_succ, if_neg (by omega)]
  · intro fuel
    rw [get_report, get_report_go_succ, if_pos (by norm_num [REPORT_LIMIT]),
      get_report_go_succ, if_pos (by norm_num [REPORT_LIMIT]),
      get_report_go_succ, if_neg (by norm_num [REPORT_LIMIT])]
    norm_num [REPORT_LIMIT]

/-- Witness for C6: a row_count of 99 at most one page; the local
has-more-rows criterion at a concrete response. -/
theorem claim_C6_witness :
    (99 ≤ REPORT_LIMIT ∧ get_report (fun _ => 99) 1 = [(0, 99)]) ∧
    (2 ≤ (get_report_go (fun _ => 250000) 2 0).length ↔
      REPORT_LIMIT + 0 < 250000) := by
  exact ⟨⟨by decide, claim_C6.2.2.1 99 0 (by decide)⟩,
    claim_C6.1 (fun _ => 250000) 0 0⟩

/-- C3 counterexample: five consecutive ResourceExhausted outcomes make the
decorated make_request surface the error to its caller (after 5 calls and
five quota sleeps), so quota-exhaustion occurrences DO count toward the
5-attempt cap and a finite run of them alone is fatal. -/
theorem claim_C3_counterexample :
    make_request_with_backoff (α := Nat)
        (fun _ => .error .resource_exhausted) (fun _ => 0) =
      ⟨.error .resource_exhausted,
       [(true, 3610), (false, 1), (true, 3610), (false, 2), (true, 3610),
        (false, 4), (true, 3610), (false, 8), (true, 3610)], 5⟩ := by
  decide

/-- C3 as amended: a quota-exhaustion error makes the caller block for
seconds_to_next_hour(now) seconds inside the giveup callback (which always
returns false, so backoff never gives up early because of it) and then
retry after the scheduled backoff sleep — but the occurrence still consumes
one of the 5 tries, so five consecutive quota-exhaustion errors surface the
error to the caller. -/
theorem claim_C3 {α : Type} :
    (∀ (attempts : Nat → Except GoogleErr α) (nows : Nat → Nat) (v : α),
      attempts 0 = .error .resource_exhausted → attempts 1 = .ok v →
      make_request_with_backoff attempts nows =
        ⟨.ok v, [(true, seconds_to_next_hour (nows 0)), (false, 1)], 2⟩) ∧
    (∀ (e : GoogleErr) (now : Nat),
      (sleep_if_quota_reached e now).1 = false ∧
      (e = .resource_exhausted →
        (sleep_if_quota_reached e now).2 = [(true, seconds_to_next_hour now)])) ∧
    (∀ (attempts : Nat → Except GoogleErr α) (nows : Nat → Nat),
      (∀ k, attempts k = .error .resource_exhausted) →
      make_request_with_backoff attempts nows =
        ⟨.error .resource_exhausted,
         [(true, seconds_to_next_hour (nows 0)), (false, 1),
          (true, seconds_to_next_hour (nows 1)), (false, 2),
          (true, seconds_to_next_hour (nows 2)), (false, 4),
          (true, seconds_to_next_hour (nows 3)), (false, 8),
          (true, seconds_to_next_hour (nows 4))], 5⟩) := by
  refine ⟨?_, ?_, ?_⟩
  · intro attempts nows v h0 h1
    simp [make_request_with_backoff, MAX_TRIES, backoff_retry_go, h0, h1,
      sleep_if_quota_reached, inBackoffTuple]
  · intro e now
    refine ⟨?_, ?_⟩
    · rw [sleep_if_quota_reached]
      split <;> rfl
    · intro he
      subst he
      rw [sleep_if_quota_reached, if_pos rfl]
  · intro attempts nows h
    simp [make_request_with_backoff, MAX_TRIES, backoff_retry_go, h 0, h 1,
      h 2, h 3, h 4, sleep_if_quota_reached, inBackoffTuple]

/-- Witness for C3: one quota error followed by a success; the run blocks
for the quota sleep (1810 seconds at the chosen clock), retries once and
succeeds after 2 calls. -/
theorem claim_C3_witness :
    make_request_with_backoff (α := Nat)
        (fun k => if k = 0 then .error .resource_exhausted else .ok 7)
        (fun _ => 1800) =
      ⟨.ok 7, [(true, 1810), (false, 1)], 2⟩ := by
  have h := claim_C3.1
    (fun k => if k = 0 then .error .resource_exhausted else .ok 7)
    (fun _ => 1800) 7 (by decide) (by decide)
  rw [h]
  decide

/-- The per-field effect of transform_datetimes on a (name, value) entry. -/
def tdField (fv : String × String) : String × String :=
  if fv.2 ≠ "" ∧ (DATETIME_FORMATS fv.1).isSome then
    (fv.1, (parse_datetime fv.1 fv.2).1)
  else fv

/-- Whether a (name, value) entry contributes to the row-limit flag. -/
def tdFlagged (fv : String × String) : Bool :=
  decide (fv.2 ≠ "" ∧ (DATETIME_FORMATS fv.1).isSome) &&
    (!(parse_datetime fv.1 fv.2).2 && (fv.2 == "(other)"))

theorem td_foldl (rec : List (String × String)) :
    ∀ acc : List (String × String) × Bool,
      List.foldl
        (fun acc fv =>
          if fv.2 ≠ "" ∧ (DATETIME_FORMATS fv.1).isSome then
            (acc.1 ++ [(fv.1, (parse_datetime fv.1 fv.2).1)],
             acc.2 || (!(parse_datetime fv.1 fv.2).2 && (fv.2 == "(other)")))
          else (acc.1 ++ [fv], acc.2)) acc rec
      = (acc.1 ++ rec.map tdField, acc.2 || rec.any tdFlagged) := by
  induction rec with
  | nil => intro acc; simp
  | cons fv rest ih =>
    intro acc
    rw [List.foldl_cons, List.map_cons, List.any_cons]
    by_cases hc : fv.2 ≠ "" ∧ (DATETIME_FORMATS fv.1).isSome
    · rw [if_pos hc, ih]
      rw [tdField, if_pos hc, tdFlagged]
      simp [hc, Bool.or_assoc]
    · rw [if_neg hc, ih]
      rw [tdField, if_neg hc, tdFlagged]
      simp [hc]

theorem transform_datetimes_eq (rec : List (String × String)) :
    transform_datetimes rec = (rec.map tdField, rec.any tdFlagged) := by
  rw [transform_datetimes, td_foldl]
  simp

/-- C7: transform_datetimes rewrites exactly the non-empty fields named in
DATETIME_FORMATS (date, dateHour, dateHourMinute, firstSessionDate), field
by field: a parseable compact value is replaced by the normalized timestamp
string, an unparseable one is left unchanged, and the row-limit warning is
raised iff some examined unparseable value is the literal "(other)"; no
parse failure is fatal and all other fields are untouched.  Checked on the
spec's three examples. -/
theorem claim_C7 :
    (∀ rec, transform_datetimes rec = (rec.map tdField, rec.any tdFlagged)) ∧
    (∀ fv : String × String, fv.2 = "" ∨ DATETIME_FORMATS fv.1 = none →
      tdField fv = fv ∧ tdFlagged fv = false) ∧
    (∀ (f v : String) (fmt : GAFormat) (dt : ParsedDT),
      DATETIME_FORMATS f = some fmt → strptime fmt v = some dt → v ≠ "" →
      tdField (f, v) = (f, strftimeDT dt) ∧ tdFlagged (f, v) = false) ∧
    (∀ (f v : String) (fmt : GAFormat),
      DATETIME_FORMATS f = some fmt → strptime fmt v = none → v ≠ "" →
      tdField (f, v) = (f, v) ∧ (tdFlagged (f, v) = true ↔ v = "(other)")) ∧
    (∀ rec, (transform_datetimes rec).2 = true ↔
      ∃ fv ∈ rec, fv.2 ≠ "" ∧ (DATETIME_FORMATS fv.1).isSome ∧
        (parse_datetime fv.1 fv.2).2 = false ∧ fv.2 = "(other)") ∧
    transform_datetimes [("date", "20230115")]
      = ([("date", "2023-01-15T00:00:00.000000Z")], false) ∧
    transform_datetimes [("date", "(other)")] = ([("date", "(other)")], true) ∧
    transform_datetimes [("date", "notadate")] = ([("date", "notadate")], false) := by
  refine ⟨transform_datetimes_eq, ?_, ?_, ?_, ?_, by decide, by decide, by decide⟩
  · intro fv h
    have hc : ¬(fv.2 ≠ "" ∧ (DATETIME_FORMATS fv.1).isSome) := by
      rcases h with h | h <;> simp [h]
    rw [tdField, if_neg hc, tdFlagged]
    simp [hc]
  · intro f v fmt dt hf hs hv
    simp [tdField, tdFlagged, parse_datetime, hf, hs, hv]
  · intro f v fmt hf hs hv
    simp [tdField, tdFlagged, parse_datetime, hf, hs, hv]
  · intro rec
    rw [transform_datetimes_eq]
    rw [List.any_eq_true]
    constructor
    · rintro ⟨fv, hmem, hflag⟩
      rw [tdFlagged] at hflag
      simp only [Bool.and_eq_true, decide_eq_true_eq, Bool.not_eq_eq_eq_not,
        Bool.not_true, beq_iff_eq] at hflag
      exact ⟨fv, hmem, hflag.1.1, hflag.1.2, hflag.2.1, hflag.2.2⟩
    · rintro ⟨fv, hmem, h1, h2, h3, h4⟩
      refine ⟨fv, hmem, ?_⟩
      rw [tdFlagged]
      rw [h4] at h3
      simp [h1, h2, h3, h4]

/-- Witness for C7: the parse-success conjunct at field date with value
20230115, and the sentinel conjunct at value (other). -/
theorem claim_C7_witness :
    (tdField ("date", "20230115") = ("date", "2023-01-15T00:00:00.000000Z") ∧
      tdFlagged ("date", "20230115") = false) ∧
    (tdField ("date", "(other)") = ("date", "(other)") ∧
      (tdFlagged ("date", "(other)") = true ↔ ("(other)" : String) = "(other)")) := by
  constructor
  · exact claim_C7.2.2.1 "date" "20230115" .date ⟨2023, 1, 15, 0, 0⟩
      (by decide) (by decide) (by decide)
  · exact claim_C7.2.2.2.1 "date" "(other)" .date (by decide) (by decide) (by decide)

/-- Closed form of row_to_record: the zip truncation, the two failure
modes, and the final record with its primary-key hash. -/
theorem row_to_record_eq (pid : String) (dv mv dh mh : List String) :
    row_to_record pid ⟨dv, mv⟩ dh mh =
      match dh.indexOf? "date" with
      | none => .error .value_error
      | some i =>
        match dv[i]? with
        | none => .error .index_error
        | some rd =>
          .ok (dictSet
            (dictSet (dictSet (dictSet
              (dictUpdate (dictUpdate [] (dh.zip dv)) (mh.zip mv))
              "start_date" rd) "end_date" rd) "property_id" pid)
            "_sdc_record_hash" (sdc_hash_spec pid (dh.zip dv) rd rd)) := by
  simp only [row_to_record]
  rcases hidx : dh.indexOf? "date" with _ | i
  · simp only [hidx]
  · simp only [hidx]
    rcases hdv : dv[i]? with _ | rd
    · simp only [hdv]
    · simp only [hdv, generate_sdc_record_hash_fields]

theorem tdField_fst (fv : String × String) : (tdField fv).1 = fv.1 := by
  rw [tdField]
  split <;> rfl

/-- transform_datetimes leaves the value of any field whose name is not a
DATETIME_FORMATS key unchanged (looked up by name). -/
theorem dictGet_transform (rec : List (String × String)) (k : String)
    (hk : DATETIME_FORMATS k = none) :
    dictGet (transform_datetimes rec).1 k = dictGet rec k := by
  rw [transform_datetimes_eq]
  induction rec with
  | nil => rfl
  | cons fv rest ih =>
    rw [List.map_cons]
    show dictGet (tdField fv :: rest.map tdField) k = dictGet (fv :: rest) k
    rw [dictGet, dictGet, tdField_fst]
    by_cases hf : fv.1 = k
    · rw [if_pos hf, if_pos hf]
      have hnone : DATETIME_FORMATS fv.1 = none := by rw [hf]; exact hk
      have hfix : tdField fv = fv := by
        rw [tdField, if_neg (by simp [hnone])]
      rw [hfix]
    · rw [if_neg hf, if_neg hf]
      exact ih

/-- The bookmark snapshots persisted by a trace, in order. -/
def stateWrites {α : Type} (evs : List (SyncEvent α)) : List (Option Int) :=
  evs.filterMap (fun ev => match ev with
    | .write_state b => some b
    | .record _ => none)

/-- One chunk's contribution to the trace: its records in page order, then
the snapshot persisting its end date. -/
def chunkBlock {α : Type} (pages : Int × Int → List (List α)) (c : Int × Int) :
    List (SyncEvent α) :=
  chunkRecords pages c ++ [SyncEvent.write_state (some c.2)]

theorem stateWrites_append {α : Type} (a b : List (SyncEvent α)) :
    stateWrites (a ++ b) = stateWrites a ++ stateWrites b :=
  List.filterMap_append ..

theorem stateWrites_chunkRecords {α : Type} (pages : Int × Int → List (List α))
    (c : Int × Int) : stateWrites (chunkRecords pages c) = [] := by
  rw [stateWrites, List.filterMap_eq_nil_iff]
  intro e he
  rw [chunkRecords, List.mem_flatten] at he
  obtain ⟨l, hl, hel⟩ := he
  rw [List.mem_map] at hl
  obtain ⟨page, _, rfl⟩ := hl
  rw [List.mem_map] at hel
  obtain ⟨r, _, rfl⟩ := hel
  rfl

theorem sync_chunks_fst {α : Type} (pages : Int × Int → List (List α)) :
    ∀ (l : List (Int × Int)) (st : Option Int),
      (sync_chunks pages l st).1 = l.flatMap (chunkBlock pages) := by
  intro l
  induction l with
  | nil => intro st; rfl
  | cons c cs ih =>
    intro st
    show chunkRecords pages c ++
        SyncEvent.write_state (some c.2) :: (sync_chunks pages cs (some c.2)).1
      = (c :: cs).flatMap (chunkBlock pages)
    rw [List.flatMap_cons, ih, chunkBlock]
    simp [List.append_assoc]

theorem stateWrites_trace {α : Type} (pages : Int × Int → List (List α)) :
    ∀ l : List (Int × Int),
      stateWrites (l.flatMap (chunkBlock pages)) = l.map (fun c => some c.2) := by
  intro l
  induction l with
  | nil => rfl
  | cons c cs ih =>
    rw [List.flatMap_cons, chunkBlock, List.append_assoc, stateWrites_append,
      stateWrites_chunkRecords, stateWrites_append, ih, List.map_cons]
    rfl

/-! ## Claims -/

/-- C1: the `_sdc_record_hash` equals the SHA-256 hex digest of the UTF-8
JSON encoding of `[property_id, sorted (dimension_name, dimension_value)
pairs, start_date, end_date]` with pairs sorted name-then-value; rows with
the same property_id, the same collection of dimension pairs in any order,
and the same start/end dates hash identically regardless of dimension-pair
order or metric values (the hash takes no other inputs); and changing the
property_id, a dimension value, the start_date or the end_date changes the
hash (shown on distinct concrete inputs, with the first digest checked
against the real SHA-256 value). -/
theorem claim_C1 :
    (∀ (pid s e : String) (pairs : List (String × String)),
      generate_sdc_record_hash
        [("property_id", pid), ("start_date", s), ("end_date", e)] pairs
        = some (sdc_hash_spec pid pairs s e)) ∧
    (∀ (rec p₁ p₂ : List (String × String)), p₁.Perm p₂ →
      generate_sdc_record_hash rec p₁ = generate_sdc_record_hash rec p₂) ∧
    (∀ (pid : String) (dv dh mh₁ mh₂ mv₁ mv₂ : List String)
      (r₁ r₂ : List (String × String)),
      row_to_record pid ⟨dv, mv₁⟩ dh mh₁ = .ok r₁ →
      row_to_record pid ⟨dv, mv₂⟩ dh mh₂ = .ok r₂ →
      dictGet r₁ "_sdc_record_hash" = dictGet r₂ "_sdc_record_hash") ∧
    (generate_sdc_record_hash
        [("property_id", "123"), ("start_date", "20230101"), ("end_date", "20230101")]
        [("date", "20230101")]
      = some "703bae56932744468be771f000bb06c17369f7d96361ee2500cb380e19b681f9" ∧
     generate_sdc_record_hash
        [("property_id", "123"), ("start_date", "20230101"), ("end_date", "20230101")]
        [("date", "20230102")]
      ≠ some "703bae56932744468be771f000bb06c17369f7d96361ee2500cb380e19b681f9" ∧
     generate_sdc_record_hash
        [("property_id", "124"), ("start_date", "20230101"), ("end_date", "20230101")]
        [("date", "20230101")]
      ≠ some "703bae56932744468be771f000bb06c17369f7d96361ee2500cb380e19b681f9" ∧
     generate_sdc_record_hash
        [("property_id", "123"), ("start_date", "20230102"), ("end_date", "20230101")]
        [("date", "20230101")]
      ≠ some "703bae56932744468be771f000bb06c17369f7d96361ee2500cb380e19b681f9" ∧
     generate_sdc_record_hash
        [("property_id", "123"), ("start_date", "20230101"), ("end_date", "20230102")]
        [("date", "20230101")]
      ≠ some "703bae56932744468be771f000bb06c17369f7d96361ee2500cb380e19b681f9") := by
  refine ⟨?_, ?_, ?_, by decide, by decide, by decide, by decide, by decide⟩
  · intro pid s e pairs
    simp [generate_sdc_record_hash, dictGet, sdc_hash_spec]
  · intro rec p₁ p₂ h
    simp only [generate_sdc_record_hash, sortPairs_eq_of_perm h]
  · intro pid dv dh mh₁ mh₂ mv₁ mv₂ r₁ r₂ h₁ h₂
    rw [row_to_record_eq] at h₁ h₂
    rcases hidx : dh.indexOf? "date" with _ | i
    · rw [hidx] at h₁; exact absurd h₁ (by simp)
    · simp only [hidx] at h₁ h₂
      rcases hdv : dv[i]? with _ | rd
      · rw [hdv] at h₁; exact absurd h₁ (by simp)
      · simp only [hdv, Except.ok.injEq] at h₁ h₂
        rw [← h₁, ← h₂, dictGet_dictSet_self, dictGet_dictSet_self]

/-- C4: in the sync_report trace, the state snapshot persisting chunk i's
end_date sits after every record of every page of chunk i (and after the
complete blocks of all earlier chunks) and before every record of any later
chunk; and the persisted snapshots are, in order, exactly the end dates of
the chunks in processing order — the bookmark is never written mid-chunk. -/
theorem claim_C4 {α : Type} (pages : Int × Int → List (List α))
    (start_date end_date : Int) (request_range : Nat) (st : Option Int)
    (chunks : List (Int × Int))
    (hc : chunks = generate_report_dates start_date end_date request_range)
    (i : Nat) (hi : i < chunks.length) :
    (sync_report pages start_date end_date request_range st).1 =
      (chunks.take i).flatMap (chunkBlock pages)
        ++ chunkRecords pages (chunks.get ⟨i, hi⟩)
        ++ SyncEvent.write_state (some (chunks.get ⟨i, hi⟩).2)
          :: (chunks.drop (i + 1)).flatMap (chunkBlock pages) ∧
    stateWrites (sync_report pages start_date end_date request_range st).1
      = chunks.map (fun c => some c.2) := by
  constructor
  · rw [sync_report, ← hc, sync_chunks_fst]
    conv_lhs => rw [← List.take_append_drop i chunks]
    rw [List.flatMap_append, List.drop_eq_getElem_cons hi, List.flatMap_cons,
      chunkBlock]
    simp [List.append_assoc]
  · rw [sync_report, ← hc, sync_chunks_fst, stateWrites_trace]

/-- Witness for C4 on a three-chunk span with one single-record page per
chunk: the persisted snapshots are exactly the chunk end dates in order. -/
theorem claim_C4_witness :
    1 < ([((0 : Int), (6 : Int)), (7, 13), (14, 15)]).length ∧
    stateWrites ((sync_report (fun _ => [[(0 : Nat)]]) 0 15 7 none).1)
      = [some 6, some 13, some 15] := by
  refine ⟨by decide, ?_⟩
  have h := (claim_C4 (fun _ => [[(0 : Nat)]]) 0 15 7 none
    [(0, 6), (7, 13), (14, 15)] (by decide) 1 (by decide)).2
  rw [h]
  decide

set_option maxRecDepth 100000 in
/-- C8 counterexample: with one dimension header and three metric values
for one metric header (mismatched lengths), and likewise with two dimension
values for one header, row_to_record still produces a record — the zips
silently truncate, so a length mismatch is not a fatal input contract
violation. -/
theorem claim_C8_counterexample :
    row_to_record "123" ⟨["20230101"], ["5", "6", "7"]⟩ ["date"] ["m1"]
      = .ok [("date", "20230101"), ("m1", "5"), ("start_date", "20230101"),
             ("end_date", "20230101"), ("property_id", "123"),
             ("_sdc_record_hash",
              "703bae56932744468be771f000bb06c17369f7d96361ee2500cb380e19b681f9")] ∧
    row_to_record "123" ⟨["20230101", "extra"], ["5"]⟩ ["date"] ["m1"]
      = .ok [("date", "20230101"), ("m1", "5"), ("start_date", "20230101"),
             ("end_date", "20230101"), ("property_id", "123"),
             ("_sdc_record_hash",
              "703bae56932744468be771f000bb06c17369f7d96361ee2500cb380e19b681f9")] := by
  exact ⟨by decide, by decide⟩

/-- C8 as amended: row_to_record never validates header/value lengths — the
zips silently truncate to the shorter list and a record is produced
whenever the `date` dimension is locatable; the call fails (with an
uncaught exception) exactly when `date` is absent from dimension_headers
(ValueError) or the `date` index falls outside the row's dimension values
(IndexError). -/
theorem claim_C8 :
    (∀ (pid : String) (dv mv dh mh : List String) (i : Nat),
      dh.indexOf? "date" = some i → i < dv.length →
      ∃ rec, row_to_record pid ⟨dv, mv⟩ dh mh = .ok rec) ∧
    (∀ (pid : String) (dv mv dh mh : List String),
      dh.indexOf? "date" = none →
      row_to_record pid ⟨dv, mv⟩ dh mh = .error .value_error) ∧
    (∀ (pid : String) (dv mv dh mh : List String) (i : Nat),
      dh.indexOf? "date" = some i → dv.length ≤ i →
      row_to_record pid ⟨dv, mv⟩ dh mh = .error .index_error) := by
  refine ⟨?_, ?_, ?_⟩
  · intro pid dv mv dh mh i hidx hlen
    rw [row_to_record_eq]
    simp only [hidx, List.getElem?_eq_getElem hlen]
    exact ⟨_, rfl⟩
  · intro pid dv mv dh mh hidx
    rw [row_to_record_eq]
    simp only [hidx]
  · intro pid dv mv dh mh i hidx hlen
    rw [row_to_record_eq]
    simp only [hidx, List.getElem?_eq_none hlen]

set_option maxRecDepth 100000 in
/-- Witness for C8: a locatable date dimension yields a record even with a
metric length mismatch. -/
theorem claim_C8_witness :
    (List.indexOf? "date" ["date"] = some 0 ∧ 0 < (["20230101"] : List String).length) ∧
    ∃ rec, row_to_record "123" ⟨["20230101"], ["5", "6"]⟩ ["date"] ["m1"] = .ok rec := by
  exact ⟨⟨by decide, by decide⟩,
    claim_C8.1 "123" ["20230101"] ["5", "6"] ["date"] ["m1"] 0 (by decide) (by decide)⟩

/-- C9: row_to_record yields a record only when the `date` dimension header
is present: if "date" is absent the call raises (ValueError) and produces
no record; every produced record carries the row's `date` value in both its
start_date and end_date fields. -/
theorem claim_C9 :
    (∀ (pid : String) (dv mv dh mh : List String), "date" ∉ dh →
      row_to_record pid ⟨dv, mv⟩ dh mh = .error .value_error) ∧
    (∀ (pid : String) (dv mv dh mh : List String) (rec : List (String × String)),
      row_to_record pid ⟨dv, mv⟩ dh mh = .ok rec →
      "date" ∈ dh ∧ ∃ i v, dh.indexOf? "date" = some i ∧ dv[i]? = some v ∧
        dictGet rec "start_date" = some v ∧ dictGet rec "end_date" = some v) := by
  constructor
  · intro pid dv mv dh mh hmem
    rw [row_to_record_eq]
    have hidx : dh.indexOf? "date" = none := by
      rw [List.indexOf?_eq_none_iff]
      intro x hx
      simp only [beq_iff_eq]
      intro hxeq
      exact hmem (hxeq ▸ hx)
    simp only [hidx]
  · intro pid dv mv dh mh rec h
    rw [row_to_record_eq] at h
    rcases hidx : dh.indexOf? "date" with _ | i
    · rw [hidx] at h
      exact absurd h (by simp)
    · simp only [hidx] at h
      rcases hdv : dv[i]? with _ | rd
      · rw [hdv] at h
        exact absurd h (by simp)
      · simp only [hdv, Except.ok.injEq] at h
        have hmem : "date" ∈ dh := by
          by_contra hno
          have : dh.indexOf? "date" = none := by
            rw [List.indexOf?_eq_none_iff]
            intro x hx
            simp only [beq_iff_eq]
            intro hxeq
            exact hno (hxeq ▸ hx)
          rw [this] at hidx
          exact absurd hidx (by simp)
        refine ⟨hmem, i, rd, rfl, hdv, ?_, ?_⟩
        · rw [← h, dictGet_dictSet_ne _ (by decide), dictGet_dictSet_ne _ (by decide),
            dictGet_dictSet_ne _ (by decide), dictGet_dictSet_self]
        · rw [← h, dictGet_dictSet_ne _ (by decide), dictGet_dictSet_ne _ (by decide),
            dictGet_dictSet_self]

set_option maxRecDepth 100000 in
/-- Witness for C9: a headerless-date row errors; a dated row carries its
date into start_date and end_date. -/
theorem claim_C9_witness :
    row_to_record "123" ⟨["x"], ["5"]⟩ ["city"] ["m1"] = .error .value_error ∧
    ("date" ∈ (["date"] : List String) ∧
      ∃ i v, List.indexOf? "date" ["date"] = some i ∧
        (["20230101"] : List String)[i]? = some v ∧
        dictGet [("date", "20230101"), ("m1", "5"), ("start_date", "20230101"),
          ("end_date", "20230101"), ("property_id", "123"),
          ("_sdc_record_hash",
           "703bae56932744468be771f000bb06c17369f7d96361ee2500cb380e19b681f9")]
          "start_date" = some v ∧
        dictGet [("date", "20230101"), ("m1", "5"), ("start_date", "20230101"),
          ("end_date", "20230101"), ("property_id", "123"),
          ("_sdc_record_hash",
           "703bae56932744468be771f000bb06c17369f7d96361ee2500cb380e19b681f9")]
          "end_date" = some v) := by
  constructor
  · exact claim_C9.1 "123" ["x"] ["5"] ["city"] ["m1"] (by decide)
  · exact claim_C9.2 "123" ["20230101"] ["5"] ["date"] ["m1"] _ (by decide)

set_option maxRecDepth 100000 in
/-- C10: the primary-key hash is computed in row_to_record from the raw
compact dimension values, before transform_datetimes runs;
transform_datetimes never modifies the _sdc_record_hash field, so the
emitted record's hash equals the hash of the raw values even though its
datetime fields are normalized (shown generally and on a concrete record
whose date field gets rewritten). -/
theorem claim_C10 :
    (∀ rec, dictGet (transform_datetimes rec).1 "_sdc_record_hash"
      = dictGet rec "_sdc_record_hash") ∧
    (∀ (pid : String) (dv mv dh mh : List String) (rec : List (String × String))
      (i : Nat) (rd : String),
      row_to_record pid ⟨dv, mv⟩ dh mh = .ok rec →
      dh.indexOf? "date" = some i → dv[i]? = some rd →
      dictGet (transform_datetimes rec).1 "_sdc_record_hash"
        = some (sdc_hash_spec pid (dh.zip dv) rd rd)) ∧
    (transform_datetimes
        [("date", "20230101"), ("m1", "5"), ("start_date", "20230101"),
         ("end_date", "20230101"), ("property_id", "123"),
         ("_sdc_record_hash",
          "703bae56932744468be771f000bb06c17369f7d96361ee2500cb380e19b681f9")]).1
      = [("date", "2023-01-01T00:00:00.000000Z"), ("m1", "5"),
         ("start_date", "20230101"), ("end_date", "20230101"),
         ("property_id", "123"),
         ("_sdc_record_hash",
          "703bae56932744468be771f000bb06c17369f7d96361ee2500cb380e19b681f9")] := by
  refine ⟨?_, ?_, by decide⟩
  · intro rec
    exact dictGet_transform rec "_sdc_record_hash" rfl
  · intro pid dv mv dh mh rec i rd h hidx hdv
    rw [row_to_record_eq] at h
    simp only [hidx, hdv, Except.ok.injEq] at h
    rw [dictGet_transform rec "_sdc_record_hash" rfl, ← h, dictGet_dictSet_self]

set_option maxRecDepth 100000 in
/-- Witness for C10: a concrete emitted record keeps the raw-value hash
after datetime normalization. -/
theorem claim_C10_witness :
    dictGet (transform_datetimes
        [("date", "20230101"), ("m1", "5"), ("start_date", "20230101"),
         ("end_date", "20230101"), ("property_id", "123"),
         ("_sdc_record_hash",
          "703bae56932744468be771f000bb06c17369f7d96361ee2500cb380e19b681f9")]).1
      "_sdc_record_hash"
      = some (sdc_hash_spec "123" (["date"].zip ["20230101"]) "20230101" "20230101") := by
  exact claim_C10.2.1 "123" ["20230101"] ["5"] ["date"] ["m1"] _ 0 "20230101"
    (by decide) (by decide) (by decide)

set_option maxRecDepth 100000 in
/-- Witness for C1: the permutation-determinism conjunct at a concrete pair
swap, and the metric-independence conjunct at two concrete rows differing
only in their metric column. -/
theorem claim_C1_witness :
    generate_sdc_record_hash
      [("property_id", "99"), ("start_date", "20230101"), ("end_date", "20230101")]
      [("a", "1"), ("b", "2")]
    = generate_sdc_record_hash
      [("property_id", "99"), ("start_date", "20230101"), ("end_date", "20230101")]
      [("b", "2"), ("a", "1")] ∧
    dictGet
      [("date", "20230101"), ("m1", "5"), ("start_date", "20230101"),
       ("end_date", "20230101"), ("property_id", "123"),
       ("_sdc_record_hash", "703bae56932744468be771f000bb06c17369f7d96361ee2500cb380e19b681f9")]
      "_sdc_record_hash"
    = dictGet
      [("date", "20230101"), ("m2", "7"), ("start_date", "20230101"),
       ("end_date", "20230101"), ("property_id", "123"),
       ("_sdc_record_hash", "703bae56932744468be771f000bb06c17369f7d96361ee2500cb380e19b681f9")]
      "_sdc_record_hash" := by
  constructor
  · exact claim_C1.2.1 _ _ _ (List.Perm.swap _ _ _)
  · exact claim_C1.2.2.1 "123" ["20230101"] ["date"] ["m1"] ["m2"] ["5"] ["7"] _ _
      (by decide) (by decide)

end TapGA4
